import Mathlib

/-!
Verification development for the trigger definition / registry / lifecycle
core of django-pgtrigger (src/pgtrigger/core.py), as a shallow embedding.

Python strings are Lean Strings; Python `None`-able attributes are Options;
Python exceptions are an explicit error type returned through Except.
`ValueError` is the code's realization of the spec's ConfigurationError;
`KeyError` is the distinct error class raised by a failed dict lookup.
-/

deriving instance DecidableEq for Except

namespace Pgtrigger

/-- Python exception classes raised by the embedded code. `valueError` is the
concrete class behind the spec's ConfigurationError; `keyError` is what a
failed dictionary subscript raises. -/
inductive PyError where
  | valueError (msg : String)
  | keyError
deriving DecidableEq, Repr

/-- Embeds `_Level` (core.py lines 77-89): the two instances `Row` and
`Statement` with their `name` strings. -/
inductive Level where
  | row
  | statement
deriving DecidableEq, Repr

/-- `str(level)` — `_Level.__str__` returns the name. -/
def Level.str : Level → String
  | .row => "ROW"
  | .statement => "STATEMENT"

/-- Embeds `_When` (core.py lines 116-131): `Before`, `After`, `InsteadOf`. -/
inductive TgWhen where
  | before
  | after
  | insteadOf
deriving DecidableEq, Repr

/-- `str(when)` — `_When.__str__` returns the name. -/
def TgWhen.str : TgWhen → String
  | .before => "BEFORE"
  | .after => "AFTER"
  | .insteadOf => "INSTEAD OF"

/-- Embeds `_Operation` / `_Operations` / `UpdateOf` (core.py lines 134-176).
`orOp` is the result of `__or__`; `updateOf` stores the already-joined,
quoted column list exactly as `UpdateOf.__init__` builds it. -/
inductive Operation where
  | insert
  | update
  | delete
  | truncate
  | updateOf (columns : String)
  | orOp (a b : Operation)
deriving DecidableEq, Repr

/-- `str(operation)`: `_Operation.__str__` is the name, `_Operations.__str__`
joins the operands with " OR ", `UpdateOf.__str__` is "UPDATE OF cols". -/
def Operation.str : Operation → String
  | .insert => "INSERT"
  | .update => "UPDATE"
  | .delete => "DELETE"
  | .truncate => "TRUNCATE"
  | .updateOf columns => "UPDATE OF " ++ columns
  | .orOp a b => a.str ++ " OR " ++ b.str

/-- Embeds `Condition` (core.py lines 179-194): free-form SQL. The
constructor validates non-emptiness; instances therefore carry their sql. -/
structure Condition where
  sql : String
deriving DecidableEq, Repr

/-- `str(condition)` / `condition.resolve(model)` both return the raw sql. -/
def Condition.str (c : Condition) : String := c.sql

/-- Embeds `Referencing` (core.py lines 92-113). -/
structure Referencing where
  old : Option String
  new : Option String
deriving DecidableEq, Repr

/-- `Referencing.__str__` (core.py lines 105-113). -/
def Referencing.str (r : Referencing) : String :=
  let s := "REFERENCING"
  let s := match r.old with
    | some o => s ++ " OLD TABLE AS " ++ o ++ " "
    | none => s
  match r.new with
  | some n => s ++ " NEW TABLE AS " ++ n ++ " "
  | none => s

/-- Python `str(x)` for an optional value: `str(None)` is the text "None". -/
def pyStrOpt (f : α → String) : Option α → String
  | none => "None"
  | some x => f x

/-- Model of the external library call
`hashlib.sha1(s.encode()).hexdigest()[:16]` (Python stdlib, outside this
repository). The embedded claims rely only on the digest being a
deterministic pure function of its input string that yields exactly 16
lowercase hex characters, which this model preserves: it folds the
characters into an accumulator below 16^16 and renders 16 hex digits. -/
def digest16 (s : String) : String :=
  let acc := s.data.foldl (fun a c => (a * 31 + c.toNat + 7) % 16 ^ 16) 5
  String.mk ((List.range 16).map fun i =>
    let d := acc / 16 ^ (15 - i) % 16
    if d < 10 then Char.ofNat (48 + d) else Char.ofNat (87 + d))

/-- The validated trigger definition: the state of a `Trigger` instance
after `Trigger.__init__` (core.py lines 334-413) has succeeded.

`variantName` is `self.__class__.__name__.lower()`.  `extraKey` holds the
`str()` renderings of attributes a subclass `__init__` assigned *before*
calling the base `__init__` (e.g. FSM's `field`/`transitions`), since those
come first in `self.__dict__` and hence first in `get_key()`.  `_name` is
the raw `_name` attribute (the explicit name or None). -/
structure Trigger where
  variantName : String
  extraKey : List String
  _name : Option String
  level : Level
  when : TgWhen
  operation : Operation
  condition : Option Condition
  referencing : Option Referencing
  func : Option String
deriving DecidableEq, Repr

/-- Embeds `Trigger.__init__` (core.py lines 348-381).  Arguments are the
values after merging with the class defaults (`level or self.level` etc.);
the base class default for `level` is `Row`, modeled by `.getD .row`.
Validation: missing level / when / operation raise ValueError, and a
row-level trigger with a referencing raises ValueError.  The trigger *name*
is NOT examined here. -/
def Trigger.init (variantName : String) (extraKey : List String)
    (name : Option String) (level : Option Level) (when : Option TgWhen)
    (operation : Option Operation) (condition : Option Condition)
    (referencing : Option Referencing) (func : Option String) :
    Except PyError Trigger :=
  let lvl := level.getD Level.row
  match when with
  | none => .error (.valueError "Invalid \"when\" attribute: None")
  | some w =>
    match operation with
    | none => .error (.valueError "Invalid \"operation\" attribute: None")
    | some op =>
      if lvl = Level.row ∧ referencing.isSome then
        .error (.valueError
          "Row-level triggers cannot have a \"referencing\" attribute")
      else
        .ok { variantName := variantName, extraKey := extraKey,
              _name := name, level := lvl, when := w, operation := op,
              condition := condition, referencing := referencing,
              func := func }

/-- Embeds `Trigger.get_key` (core.py lines 389-391) composed with the
join in the `name` property: `''.join(str(k) for k in self.get_key())`,
where `get_key` is `list(self.__dict__.values())` in attribute-assignment
order: subclass attributes first, then `_name`, `level`, `when`,
`operation`, `condition`, `referencing`, `func`. -/
def Trigger.getKeyStr (t : Trigger) : String :=
  String.join (t.extraKey ++
    [pyStrOpt id t._name, t.level.str, t.when.str, t.operation.str,
     pyStrOpt Condition.str t.condition,
     pyStrOpt Referencing.str t.referencing,
     pyStrOpt id t.func])

/-- The derived default name (core.py lines 395-399):
`f'{classname.lower()}_'[:37] + sha1(keystring).hexdigest()[:16]`. -/
def Trigger.defaultName (t : Trigger) : String :=
  String.mk ((t.variantName ++ "_").data.take 37) ++ digest16 t.getKeyStr

/-- Embeds the `name` property (core.py lines 393-401): `if not self._name`
falls back to the derived default (note: the empty string is falsy in
Python, so an explicit empty name also falls back). -/
def Trigger.name (t : Trigger) : String :=
  match t._name with
  | some n => if n.data.isEmpty then t.defaultName else n
  | none => t.defaultName

/-- Embeds the `pgid` property (core.py lines 403-413): raises ValueError
when the (unprefixed) name exceeds 53 characters, else prefixes
"pgtrigger_". -/
def Trigger.pgid (t : Trigger) : Except PyError String :=
  if t.name.length > 53 then
    .error (.valueError
      ("Trigger name \"" ++ t.name ++ "\" > 53 characters. "))
  else
    .ok ("pgtrigger_" ++ t.name)

/-- The pgid string a trigger gets once the length check has passed;
`Trigger.pgid = .ok (pgidStr t)` whenever the name is short enough. -/
def Trigger.pgidStr (t : Trigger) : String := "pgtrigger_" ++ t.name

/-- The slice of Django model `_meta` data this core consumes (external
collaborator): app label, object name, db table. -/
structure Model where
  appLabel : String
  objectName : String
  dbTable : String
deriving DecidableEq, Repr

/-- Embeds `Trigger.render_condition` (core.py lines 461-471). -/
def Trigger.render_condition (t : Trigger) (_m : Model) : String :=
  match t.condition with
  | none => ""
  | some c =>
    let resolved := c.sql.trim
    if resolved.isEmpty then ""
    else
      let resolved := if resolved.startsWith "(" then resolved
        else "(" ++ resolved ++ ")"
      "WHEN " ++ resolved

/-- Embeds `Trigger.render_declare` (core.py lines 473-483) applied to a
declare list (`get_declare`). -/
def renderDeclare (declare : List (String × String)) : String :=
  if declare.isEmpty then ""
  else
    "DECLARE \n" ++
      String.intercalate "\n"
        (declare.map fun p => p.1 ++ " " ++ p.2 ++ ";")

/-- Embeds `Trigger.render_ignore` (core.py lines 485-497), whitespace
normalized. -/
def renderIgnore : String :=
  "IF (_pgtrigger_should_ignore(TG_TABLE_NAME, TG_NAME) IS TRUE) THEN " ++
  "IF (TG_OP = 'DELETE') THEN RETURN OLD; ELSE RETURN NEW; END IF; END IF;"

/-- The failure classes a CREATE TRIGGER statement can raise in the
database. `duplicateObject` is the "object already exists" class; the
others are genuine errors (bad SQL, missing privilege, ...). -/
inductive PgErrorClass where
  | duplicateObject
  | syntaxError
  | insufficientPrivilege
  | undefinedTable
deriving DecidableEq, Repr

/-- The two shapes a plpgsql `EXCEPTION WHEN ... THEN null` clause could
take here: catch-all `WHEN others`, or the narrow `WHEN duplicate_object`. -/
inductive HandlerKind where
  | others
  | duplicateObject
deriving DecidableEq, Repr

/-- Which raised error classes a handler clause swallows: `WHEN others`
swallows every class; `WHEN duplicate_object` only the already-exists
class. -/
def HandlerKind.catches : HandlerKind → PgErrorClass → Bool
  | .others, _ => true
  | .duplicateObject, e => e = PgErrorClass.duplicateObject

/-- The SQL text of the handler clause. -/
def HandlerKind.sql : HandlerKind → String
  | .others => "WHEN others THEN null;"
  | .duplicateObject => "WHEN duplicate_object THEN null;"

/-- The exception handler `Trigger.render_trigger` actually emits
(core.py line 524): `WHEN others THEN null;` under the comment "Ignore
issues if the trigger already exists". -/
def renderTriggerHandler : HandlerKind := .others

/-- Embeds `Trigger.render_func` (core.py lines 499-510), whitespace
normalized; accessing `self.pgid` may raise, hence the Except.  The
declare list is the trigger's `get_declare` output, passed in by the
variant. -/
def Trigger.render_func (t : Trigger) (_m : Model)
    (declare : List (String × String)) (funcBody : String) :
    Except PyError String := do
  let pg ← t.pgid
  .ok ("CREATE OR REPLACE FUNCTION " ++ pg ++ "() RETURNS TRIGGER AS $$ " ++
    renderDeclare declare ++ " BEGIN " ++ renderIgnore ++ " " ++
    funcBody ++ " END; $$ LANGUAGE plpgsql;")

/-- Embeds `Trigger.render_trigger` (core.py lines 512-526), whitespace
normalized: the CREATE TRIGGER wrapped in a DO block whose exception
section is `renderTriggerHandler`. -/
def Trigger.render_trigger (t : Trigger) (m : Model) :
    Except PyError String := do
  let pg ← t.pgid
  .ok ("DO $$ BEGIN CREATE TRIGGER " ++ pg ++ " " ++
    t.when.str ++ " " ++ t.operation.str ++ " ON " ++ m.dbTable ++ " " ++
    (match t.referencing with | none => "" | some r => r.str) ++
    " FOR EACH " ++ t.level.str ++ " " ++ t.render_condition m ++
    " EXECUTE PROCEDURE " ++ pg ++ "(); EXCEPTION " ++
    renderTriggerHandler.sql ++ " END $$;")

/-! ### FSM variant (core.py lines 615-667) -/

/-- Python's `','.join` (core.py line 650). -/
def joinComma : List String → String
  | [] => ""
  | [x] => x
  | x :: y :: rest => x ++ "," ++ joinComma (y :: rest)

/-- The text between the braces of the array literal FSM builds
(core.py lines 648-653): `','.join(f'old:new' for old, new in transitions)`. -/
def fsmTransitionsInner (transitions : List (String × String)) : String :=
  joinComma (transitions.map fun p => p.1 ++ ":" ++ p.2)

/-- Embeds the array literal FSM builds (core.py lines 648-653):
`'\x7b' + ','.join(f'old:new') + '\x7d'`. -/
def fsmTransitionUris (transitions : List (String × String)) : String :=
  "\x7b" ++ fsmTransitionsInner transitions ++ "\x7d"

/-- Splitting a character list at every ',' — the element boundaries the
postgres array-literal parser uses. -/
def pgSplitComma : List Char → List (List Char)
  | [] => [[]]
  | c :: rest =>
    if c = ',' then [] :: pgSplitComma rest
    else
      match pgSplitComma rest with
      | [] => [[c]]
      | h :: t => (c :: h) :: t

/-- The element list postgres parses from `'\x7binner\x7d'::text[]`: the
empty literal is the empty array, otherwise the inner text is split at
every comma.  This models the parse for element texts that need no
quoting — free of ',' and of the other literal metacharacters (braces,
double quotes, backslashes, leading/trailing whitespace, and the NULL
keyword), which the safety hypotheses of the FSM theorems enforce. -/
def pgArrayElems (inner : String) : List String :=
  if inner.data = [] then []
  else (pgSplitComma inner.data).map String.mk

/-- A character an unquoted array-literal element can safely contain
(beyond ',' which the split models explicitly): no braces, quotes,
backslashes or whitespace. -/
def pgLiteralSafeChar (c : Char) : Bool :=
  !(c = ',' || c = '\x7b' || c = '\x7d' || c = '"' || c = '\\' ||
    c.isWhitespace)

/-- A string all of whose characters are safe inside an unquoted array
literal element. -/
def pgLiteralSafe (s : String) : Bool := s.data.all pgLiteralSafeChar

/-- The membership test the generated body performs:
`CONCAT(OLD.col, ':', NEW.col) = ANY('\x7binner\x7d'::text[])` — the
concatenated value is compared against the elements postgres parses out
of the rendered literal, i.e. the comma-split of the joined transitions. -/
def fsmValidTransition (transitions : List (String × String))
    (old new : String) : Bool :=
  (pgArrayElems (fsmTransitionsInner transitions)).contains
    (old ++ ":" ++ new)

/-- Whether the FSM body (core.py lines 654-667) raises, for non-null text
values: `IF (_is_valid_transition IS FALSE AND OLD.col IS DISTINCT FROM
NEW.col) THEN RAISE ...`. -/
def fsmRaises (transitions : List (String × String))
    (old new : String) : Bool :=
  !fsmValidTransition transitions old new && old != new

/-! ### Registry and `get` (core.py lines 20, 440-459, 717-737) -/

/-- The process-wide `registry` dict: URI keys mapping to (model, trigger)
pairs.  Modeled as an association list in insertion order, matching Python
dict semantics (updating an existing key keeps its position). -/
abbrev Registry := List (String × Model × Trigger)

/-- Embeds `Trigger.get_uri` (core.py lines 440-445). -/
def Trigger.get_uri (t : Trigger) (m : Model) : String :=
  m.appLabel ++ "." ++ m.objectName ++ ":" ++ t.name

/-- Python dict assignment `registry[key] = value`: replace in place when
the key exists, else append. -/
def dictSet (key : String) (v : Model × Trigger) :
    Registry → Registry
  | [] => [(key, v)]
  | (k, w) :: rest =>
    if k = key then (key, v) :: rest else (k, w) :: dictSet key v rest

/-- Embeds `Trigger.register` for one model (core.py lines 447-452):
`registry[self.get_uri(model)] = (model, self)` — an unconditional dict
assignment, with no duplicate check and no exception path. -/
def Trigger.registerModel (t : Trigger) (m : Model) (reg : Registry) :
    Registry :=
  dictSet (t.get_uri m) (m, t) reg

/-- `uri in registry` / `registry[uri]` as an association-list lookup. -/
def lookupReg (uri : String) : Registry → Option (Model × Trigger)
  | [] => none
  | (k, v) :: rest => if k = uri then some v else lookupReg uri rest

/-- The validation loop of `get` (core.py lines 724-733): for each uri, a
*non-empty* uri without a ':' raises ValueError (malformed), a non-empty
uri missing from the registry raises ValueError (not found); an empty uri
skips both checks (`if uri and ...`). -/
def checkUris (reg : Registry) : List String → Except PyError Unit
  | [] => .ok ()
  | u :: rest =>
    if ¬u.data.isEmpty ∧ ¬u.data.contains ':' then
      .error (.valueError
        "Trigger URI must be in the format of \"app_label.model_name:trigger_name\"")
    else if ¬u.data.isEmpty ∧ (lookupReg u reg).isNone then
      .error (.valueError ("URI \"" ++ u ++ "\" not found in pgtrigger registry"))
    else checkUris reg rest

/-- The comprehension `[registry[uri] for uri in uris]` (core.py line 735):
a dict subscript on a missing key raises KeyError. -/
def fetchUris (reg : Registry) : List String → Except PyError (List (Model × Trigger))
  | [] => .ok []
  | u :: rest =>
    match lookupReg u reg with
    | none => .error .keyError
    | some p => (fetchUris reg rest).map (p :: ·)

/-- Embeds `get(*uris)` (core.py lines 717-737): with no uris, every
registered pair in registration order; otherwise validate all uris, then
fetch them in input order. -/
def getTriggers (uris : List String) (reg : Registry) :
    Except PyError (List (Model × Trigger)) :=
  if uris.isEmpty then .ok (reg.map (·.2))
  else
    match checkUris reg uris with
    | .error e => .error e
    | .ok _ => fetchUris reg uris

/-! ### Lifecycle: install / drop / prune / enable
(core.py lines 321-323, 528-545, 740-792) -/

/-- The database state the lifecycle operations observe: the catalog's set
of (event_object_table, trigger_name) pairs and the set of installed
trigger function names. -/
structure DbState where
  triggers : Finset (String × String)
  funcs : Finset String
deriving DecidableEq

/-- Embeds `Trigger.install` for one model (core.py lines 528-541):
reading `self.pgid` in `render_func`/`render_trigger` can raise the
length ValueError; otherwise execute `render_func` (CREATE OR REPLACE
FUNCTION pgid) and `render_trigger` (CREATE TRIGGER pgid, with the
already-exists swallow making re-creation a no-op) — set insertion on
both catalog sets. -/
def Trigger.installModel (t : Trigger) (m : Model) (db : DbState) :
    Except PyError DbState := do
  let pg ← t.pgid
  .ok { triggers := insert (m.dbTable, pg) db.triggers,
        funcs := insert pg db.funcs }

/-- Embeds `_drop_trigger` (core.py lines 321-323): `DROP TRIGGER IF EXISTS
pgid ON table` — removes only the trigger binding; the function set is
untouched. -/
def dropTrigger (table pgid : String) (db : DbState) : DbState :=
  { db with triggers := db.triggers.erase (table, pgid) }

/-- The `LIKE 'pgtrigger_%'` catalog filter of `prune` (core.py line 770).
In SQL LIKE, '_' is a single-character wildcard and '%' matches any tail,
so the pattern accepts every name whose first nine characters are
"pgtrigger" followed by at least one further (arbitrary) character. -/
def likePgtrigger (s : String) : Bool :=
  "pgtrigger".data.isPrefixOf s.data && decide (10 ≤ s.data.length)

/-- The `(model._meta.db_table, trigger.pgid)` comprehension of `prune`
(core.py lines 762-764): reading `trigger.pgid` raises the length
ValueError for any registered name over 53 characters, aborting prune
before anything is dropped. -/
def installedPairs : Registry → Except PyError (List (String × String))
  | [] => .ok []
  | e :: rest => do
    let pg ← e.2.2.pgid
    let tail ← installedPairs rest
    .ok ((e.2.1.dbTable, pg) :: tail)

/-- The expected-pairs set a registry yields once every `pgid` read has
succeeded; `installedPairs` returns exactly this set's list when all
registered names pass the length check. -/
def installedSet (reg : Registry) : Finset (String × String) :=
  (reg.map fun e => (e.2.1.dbTable, e.2.2.pgidStr)).toFinset

/-- The function names a registry installs (same success proviso). -/
def installedFuncs (reg : Registry) : Finset String :=
  (reg.map fun e => e.2.2.pgidStr).toFinset

/-- Embeds `prune()` (core.py lines 756-780): build the expected set
(raising if some registered pgid does), then every catalog trigger whose
name matches LIKE 'pgtrigger\_%' and is not expected is dropped via
`_drop_trigger`; functions are never touched. -/
def prune (reg : Registry) (db : DbState) : Except PyError DbState := do
  let pairs ← installedPairs reg
  .ok { db with triggers :=
          db.triggers.filter fun tr =>
            ¬(likePgtrigger tr.2 = true ∧ tr ∉ pairs.toFinset) }

/-- `install()` with no uris before its final `prune` (core.py lines
740-753): installs every registered pair in order, stopping at the first
rendering error. -/
def installAllNoPrune : Registry → DbState → Except PyError DbState
  | [], db => .ok db
  | e :: rest, db => do
    let dbNext ← e.2.2.installModel e.2.1 db
    installAllNoPrune rest dbNext

set_option linter.unusedVariables false in
/-- Embeds `enable(*uris)` (core.py lines 783-792) as the list of
(table, trigger) targets it issues `ALTER TABLE ... ENABLE TRIGGER` for.
The loop iterates `get()` — with NO arguments — so the `uris` parameter
does not reach the resolution step. -/
def enableTargets (uris : List String) (reg : Registry) :
    List (String × String) :=
  (reg.map (·.2)).map fun p => (p.1.dbTable, p.2.pgidStr)

/-- For contrast, `disable(*uris)` (core.py lines 815-824) resolves its
uris through `get(*uris)`. -/
def disableTargets (uris : List String) (reg : Registry) :
    Except PyError (List (String × String)) :=
  (getTriggers uris reg).map fun l =>
    l.map fun p => (p.1.dbTable, p.2.pgidStr)

/-! ### Ignore propagation (core.py lines 23, 573-599) -/

/-- The per-thread suppression state: `_ignore.value` (a set that may not
exist yet — `hasattr` — modeled as an Option) and whether the
pre-execute hook is currently registered. -/
structure IgnoreCtx where
  value : Option (Finset String)
  hook : Bool
deriving DecidableEq

/-- The semantic suppression set of a context: an absent attribute means
nothing is suppressed. -/
def IgnoreCtx.suppressed (c : IgnoreCtx) : Finset String :=
  c.value.getD ∅

/-- Scope entry (core.py lines 576-594): initialize `_ignore.value` when
absent; when the set is empty, register the pre-execute hook through the
ExitStack; add the uri when not already present.  Returns the mid-scope
state plus the two facts the exit path needs: whether this scope
registered the hook and whether it added the uri. -/
def ignoreEnter (uri : String) (c : IgnoreCtx) :
    IgnoreCtx × Bool × Bool :=
  let s := c.value.getD ∅
  let hookAdded := s = ∅
  let added := uri ∉ s
  ({ value := some (if added then insert uri s else s),
     hook := c.hook || hookAdded }, hookAdded, added)

/-- Scope exit (core.py lines 595-599 `finally`, and the ExitStack unwind
at line 576): remove the uri when this scope added it, then tear down the
hook when this scope registered it.  Python's `finally` and
`ExitStack.__exit__` both run on the exception path too, so this function
is applied regardless of whether the body raised. -/
def ignoreExit (uri : String) (hookAdded added : Bool) (c : IgnoreCtx) :
    IgnoreCtx :=
  let s := c.value.getD ∅
  { value := some (if added then s.erase uri else s),
    hook := if hookAdded then false else c.hook }

/-- A full `with trigger.ignore(model)` scope around a body that raised
iff `raised`: enter, run the body, and exit on both the normal and the
exceptional path (`try/finally` + ExitStack), re-raising the body's
exception afterwards. -/
def runIgnoreScope (uri : String) (c : IgnoreCtx) (raised : Bool) :
    IgnoreCtx × Bool :=
  let (mid, hookAdded, added) := ignoreEnter uri c
  (ignoreExit uri hookAdded added mid, raised)

/-! ### Concrete fixtures -/

/-- A concrete model. -/
def modelA : Model := ⟨"app", "ModelA", "table_a"⟩

/-- A second concrete model. -/
def modelB : Model := ⟨"app", "ModelB", "table_b"⟩

/-- An explicitly named Protect-style trigger on deletes. -/
def protectA : Trigger :=
  ⟨"protect", [], some "protect_a", .row, .before, .delete, none, none, none⟩

/-- An explicitly named Protect-style trigger for the second model. -/
def protectB : Trigger :=
  ⟨"protect", [], some "protect_b", .row, .before, .delete, none, none, none⟩

/-- A registry holding both protect triggers, in registration order. -/
def regAB : Registry :=
  [("app.ModelA:protect_a", modelA, protectA),
   ("app.ModelB:protect_b", modelB, protectB)]

/-- A registry holding only the first protect trigger. -/
def regP : Registry := [("app.ModelA:protect_a", modelA, protectA)]

/-- The database state produced by installing everything in `regP` into an
empty database (the `.ok` value of `installAllNoPrune regP ⟨∅, ∅⟩`). -/
def dbInstalled : DbState :=
  ⟨{("table_a", "pgtrigger_protect_a")}, {"pgtrigger_protect_a"}⟩

/-- A second trigger carrying the same explicit name (hence the same URI on
`modelA`) as `protectA` but a different body. -/
def protectA2 : Trigger :=
  ⟨"protect", [], some "protect_a", .row, .before, .delete, none, none,
   some "RETURN NULL;"⟩

/-- An explicit 54-character name. -/
def name54 : String :=
  "aaaaaaaaaaaaaaaaaaaaaaaaaaaaaaaaaaaaaaaaaaaaaaaaaaaaaa"

/-- The trigger built from `name54`; construction does not examine the
name. -/
def trig54 : Trigger :=
  ⟨"trigger", [], some name54, .row, .before, .insert, none, none, none⟩

/-- A default-named (no explicit name) trigger. -/
def defTrig : Trigger :=
  ⟨"trigger", [], none, .row, .before, .insert, none, none,
   some "RETURN NEW;"⟩

/-- A default-named trigger with condition sql "a" and func "Nonexb". -/
def trigColA : Trigger :=
  ⟨"trigger", [], none, .row, .before, .insert, some ⟨"a"⟩, none,
   some "Nonexb"⟩

/-- A default-named trigger with condition sql "aNone" and func "xb":
its attributes differ from `trigColA`, yet the `''.join(str(k) ...)` key
string is the same, because the join is not injective. -/
def trigColB : Trigger :=
  ⟨"trigger", [], none, .row, .before, .insert, some ⟨"aNone"⟩, none,
   some "xb"⟩

/-! ### General lemmas about the embedding -/

/-- Monadic bind on a successful Except is application. -/
theorem exceptBind_ok {β γ : Type} (a : β) (f : β → Except PyError γ) :
    (Except.ok a : Except PyError β) >>= f = f a := rfl

/-- The modeled digest always renders exactly 16 characters. -/
theorem digest16_length (s : String) : (digest16 s).length = 16 := by
  simp [digest16, String.length, String.mk]

/-- When the name passes the length check, `pgid` is the prefixed name. -/
theorem pgid_eq_pgidStr (t : Trigger) (h : t.name.length ≤ 53) :
    t.pgid = .ok t.pgidStr := by
  simp [Trigger.pgid, Trigger.pgidStr, Nat.not_lt.mpr h]

/-! ### C1 — enable ignores its URI arguments -/

/-- C1 (code bug): `enable(*uris)` iterates `get()` with no arguments
instead of `get(*uris)`, so with a two-entry registry and a single URI it
issues ALTER TABLE ... ENABLE TRIGGER for *both* triggers, while
`disable(*uris)` — which does pass its uris through — touches only the
requested one.  This contradicts both the claim and enable's own
docstring ("Enables registered triggers matching URIs"). -/
theorem c1_enable_enables_all :
    enableTargets ["app.ModelA:protect_a"] regAB =
      [("table_a", "pgtrigger_protect_a"), ("table_b", "pgtrigger_protect_b")] ∧
    disableTargets ["app.ModelA:protect_a"] regAB =
      .ok [("table_a", "pgtrigger_protect_a")] := by
  decide

/-! ### C2 — the CREATE TRIGGER exception handler -/

/-- C2 (code bug): the DO block `render_trigger` emits uses the catch-all
`WHEN others THEN null;` handler, which swallows *every* failure class —
syntax errors and permission errors included — not only the
"object already exists" class; this contradicts the code's own comment
("Ignore issues if the trigger already exists") and the claim. -/
theorem c2_handler_swallows_every_class :
    renderTriggerHandler.catches PgErrorClass.syntaxError = true ∧
    renderTriggerHandler.catches PgErrorClass.insufficientPrivilege = true ∧
    renderTriggerHandler.catches PgErrorClass.duplicateObject = true ∧
    renderTriggerHandler ≠ HandlerKind.duplicateObject := by
  decide

/-! ### C3 — duplicate-URI registration -/

/-- C3 counterexample: registering a trigger whose URI is already a key
does NOT fail — `Trigger.register` is a bare dict assignment with no
duplicate check (its embedded type has no error outcome at all) — and it
does NOT leave the registry unchanged: the existing entry is overwritten
with the new pair. -/
theorem c3_counterexample :
    protectA2 ≠ protectA ∧
    lookupReg "app.ModelA:protect_a" regP = some (modelA, protectA) ∧
    protectA2.registerModel modelA regP =
      [("app.ModelA:protect_a", modelA, protectA2)] := by
  decide

/-- Python dict assignment on an existing key keeps the key set (and key
order) unchanged. -/
theorem dictSet_keys_of_mem (k : String) (v : Model × Trigger) :
    ∀ reg : Registry, (lookupReg k reg).isSome →
      (dictSet k v reg).map (·.1) = reg.map (·.1)
  | [], h => by simp [lookupReg] at h
  | (k', w) :: rest, h => by
    by_cases hk : k' = k
    · subst hk
      simp [dictSet]
    · have : (lookupReg k rest).isSome := by
        simpa [lookupReg, hk] using h
      simp [dictSet, hk, dictSet_keys_of_mem k v rest this]

/-- Python dict assignment makes the key map to the new value. -/
theorem lookupReg_dictSet (k : String) (v : Model × Trigger) :
    ∀ reg : Registry, lookupReg k (dictSet k v reg) = some v
  | [] => by simp [dictSet, lookupReg]
  | (k', w) :: rest => by
    by_cases hk : k' = k
    · subst hk
      simp [dictSet, lookupReg]
    · simp [dictSet, hk, lookupReg, lookupReg_dictSet k v rest]

/-- C3 (amended): for every registry and every (trigger, model) pair whose
URI is already a key, `register` succeeds (it has no failure path) and
silently overwrites: the key set and its order are unchanged and the URI
now maps to the new pair. -/
theorem c3_register_overwrites (t : Trigger) (m : Model) (reg : Registry)
    (h : (lookupReg (t.get_uri m) reg).isSome) :
    (t.registerModel m reg).map (·.1) = reg.map (·.1) ∧
    lookupReg (t.get_uri m) (t.registerModel m reg) = some (m, t) :=
  ⟨dictSet_keys_of_mem _ _ reg h, lookupReg_dictSet _ _ reg⟩

/-- Witness for C3's amended theorem at a concrete duplicate. -/
theorem c3_witness :
    (protectA2.registerModel modelA regP).map (·.1) = regP.map (·.1) ∧
    lookupReg (protectA2.get_uri modelA)
      (protectA2.registerModel modelA regP) = some (modelA, protectA2) :=
  c3_register_overwrites protectA2 modelA regP (by decide)

/-! ### C4 — where the 53-character name check happens -/

/-- C4 counterexample: a definition with a 54-character explicit name
constructs successfully — `Trigger.__init__` never checks the name — and
the ValueError fires only later, inside rendering, when `render_trigger`
reads the `pgid` property.  The claim's "construction fails ... before any
rendering is attempted" is therefore false. -/
theorem c4_counterexample :
    Trigger.init "trigger" [] (some name54) none (some .before)
        (some .insert) none none none = .ok trig54 ∧
    name54.length = 54 ∧
    trig54.render_trigger modelA =
      .error (.valueError
        ("Trigger name \"" ++ name54 ++ "\" > 53 characters. ")) := by
  decide

/-- A failed `pgid` read propagates out of `render_func` (the do-block's
first step). -/
theorem render_func_error (t : Trigger) (m : Model)
    (d : List (String × String)) (b : String) (e : PyError)
    (h : t.pgid = .error e) : t.render_func m d b = .error e := by
  unfold Trigger.render_func
  rw [h]
  rfl

/-- A failed `pgid` read propagates out of `render_trigger`. -/
theorem render_trigger_error (t : Trigger) (m : Model) (e : PyError)
    (h : t.pgid = .error e) : t.render_trigger m = .error e := by
  unfold Trigger.render_trigger
  rw [h]
  rfl

/-- C4 (amended): a definition whose explicit name exceeds 53 characters
constructs successfully; the ValueError is raised when `pgid` is computed,
so `render_func` and `render_trigger` — not construction — fail. -/
theorem c4_length_checked_at_render (vn n : String) (w : TgWhen)
    (op : Operation) (f : Option String)
    (hne : ¬n.data.isEmpty = true) (hlen : 53 < n.length) :
    ∃ t : Trigger,
      Trigger.init vn [] (some n) none (some w) (some op) none none f =
        .ok t ∧
      t.name = n ∧
      t.pgid = .error (.valueError
        ("Trigger name \"" ++ n ++ "\" > 53 characters. ")) ∧
      (∀ (m : Model) (d : List (String × String)) (b : String),
        t.render_func m d b = .error (.valueError
          ("Trigger name \"" ++ n ++ "\" > 53 characters. "))) ∧
      (∀ m : Model, t.render_trigger m = .error (.valueError
        ("Trigger name \"" ++ n ++ "\" > 53 characters. "))) := by
  refine ⟨⟨vn, [], some n, .row, w, op, none, none, f⟩, ?_, ?_, ?_, ?_, ?_⟩
  · simp [Trigger.init]
  · simp [Trigger.name, hne]
  · simp [Trigger.pgid, Trigger.name, hne, hlen]
  · intro m d b
    exact render_func_error _ m d b _
      (by simp [Trigger.pgid, Trigger.name, hne, hlen])
  · intro m
    exact render_trigger_error _ m _
      (by simp [Trigger.pgid, Trigger.name, hne, hlen])

/-- Witness for C4's amended theorem at the concrete 54-character name. -/
theorem c4_witness :
    ∃ t : Trigger,
      Trigger.init "trigger" [] (some name54) none (some .before)
          (some .insert) none none none = .ok t ∧
      t.name = name54 ∧
      t.pgid = .error (.valueError
        ("Trigger name \"" ++ name54 ++ "\" > 53 characters. ")) ∧
      (∀ (m : Model) (d : List (String × String)) (b : String),
        t.render_func m d b = .error (.valueError
          ("Trigger name \"" ++ name54 ++ "\" > 53 characters. "))) ∧
      (∀ m : Model, t.render_trigger m = .error (.valueError
        ("Trigger name \"" ++ name54 ++ "\" > 53 characters. "))) :=
  c4_length_checked_at_render "trigger" name54 .before .insert none
    (by decide) (by decide)

/-! ### C10 — default names always pass the length check -/

/-- C10: a default-derived name is the class-name prefix truncated to 37
characters plus the 16-character digest, so it never exceeds 53
characters, and `pgid` on a default-named definition never raises the
length ValueError — the violation is reachable only through an explicit
name. -/
theorem c10_default_name_within_limit (t : Trigger) (h : t._name = none) :
    t.name.length ≤ 53 ∧ t.pgid = .ok ("pgtrigger_" ++ t.name) := by
  have hname : t.name = t.defaultName := by simp [Trigger.name, h]
  have hlen : t.name.length ≤ 53 := by
    rw [hname]
    unfold Trigger.defaultName
    rw [String.length_append]
    have h1 : (String.mk ((t.variantName ++ "_").data.take 37)).length ≤ 37 :=
      List.length_take_le 37 (t.variantName ++ "_").data
    have h2 := digest16_length t.getKeyStr
    omega
  exact ⟨hlen, by simp [Trigger.pgid, Nat.not_lt.mpr hlen]⟩

/-- Witness for C10 at a concrete default-named trigger. -/
theorem c10_witness :
    defTrig.name.length ≤ 53 ∧
    defTrig.pgid = .ok ("pgtrigger_" ++ defTrig.name) :=
  c10_default_name_within_limit defTrig rfl

/-! ### C6 — the derived default name -/

/-- C6 counterexample: two constructible definitions with *different*
attribute values (their conditions differ, and so do their funcs) whose
derived default names are identical — the hash input is the plain
concatenation of the attributes' str() renderings, and distinct attribute
lists can concatenate to the same string.  "Any change to any attribute
produces a different default name" is therefore false. -/
theorem c6_counterexample :
    Trigger.init "trigger" [] none none (some .before) (some .insert)
        (some ⟨"a"⟩) none (some "Nonexb") = .ok trigColA ∧
    Trigger.init "trigger" [] none none (some .before) (some .insert)
        (some ⟨"aNone"⟩) none (some "xb") = .ok trigColB ∧
    trigColA.condition ≠ trigColB.condition ∧
    trigColA._name = none ∧ trigColB._name = none ∧
    Trigger.name trigColA = Trigger.name trigColB := by
  decide

/-- C6 (amended): the default name is a deterministic function of the
variant name and the joined attribute key string (so definitions with
identical attributes always share it), and a non-empty explicit name
always wins; but the converse fails — distinct attribute values can
collide (see the counterexample), and Python's falsiness check means an
explicit *empty* name also falls back to the derived one. -/
theorem c6_default_name_functional :
    (∀ t1 t2 : Trigger, t1._name = none → t2._name = none →
      t1.variantName = t2.variantName → t1.getKeyStr = t2.getKeyStr →
      t1.name = t2.name) ∧
    (∀ (t : Trigger) (n : String), t._name = some n →
      ¬n.data.isEmpty = true → t.name = n) := by
  constructor
  · intro t1 t2 h1 h2 hv hk
    simp [Trigger.name, h1, h2, Trigger.defaultName, hv, hk]
  · intro t n h hne
    simp [Trigger.name, h, hne]

/-- Witness for C6's amended theorem: the collision pair shares a name
through the first clause, and a concrete explicit name wins through the
second. -/
theorem c6_witness :
    trigColA.name = trigColB.name ∧ protectA.name = "protect_a" :=
  ⟨c6_default_name_functional.1 trigColA trigColB rfl rfl rfl (by decide),
   c6_default_name_functional.2 protectA "protect_a" rfl (by decide)⟩

/-! ### C9 — ignore scopes unwind deterministically -/

/-- C9: for every execution of an ignore scope — the body's outcome
`raised` being success or an exception — exit restores the context: the
suppression set and the hook flag equal their values before entry, the
body's exception (if any) propagates, and inside the scope the target is
in the suppression set (so a target this scope added is removed again on
exit, and a hook this scope installed — which happens exactly when the
set was empty, i.e. when removal empties it again — is torn down).
Hypothesis: the hook-set invariant the code maintains (the pre-execute
hook is registered iff the suppression set is non-empty). -/
theorem c9_ignore_scope_restores (uri : String) (c : IgnoreCtx)
    (raised : Bool) (hinv : c.hook = true ↔ c.suppressed ≠ ∅) :
    (runIgnoreScope uri c raised).1.suppressed = c.suppressed ∧
    (runIgnoreScope uri c raised).1.hook = c.hook ∧
    (runIgnoreScope uri c raised).2 = raised ∧
    (ignoreEnter uri c).1.suppressed = insert uri c.suppressed := by
  have hsupp : c.suppressed = c.value.getD ∅ := rfl
  by_cases hmem : uri ∈ c.value.getD ∅
  · -- already being ignored: nothing is added, hence nothing removed
    have hne : ¬c.value.getD ∅ = ∅ := by
      intro h
      rw [h] at hmem
      exact absurd hmem (Finset.not_mem_empty uri)
    refine ⟨?_, ?_, rfl, ?_⟩
    · simp [runIgnoreScope, ignoreEnter, ignoreExit, IgnoreCtx.suppressed,
        hmem, hne]
    · simp [runIgnoreScope, ignoreEnter, ignoreExit, hne]
    · simp [ignoreEnter, IgnoreCtx.suppressed, hmem, hsupp,
        (Finset.insert_eq_self).mpr hmem]
  · by_cases hempty : c.value.getD ∅ = ∅
    · -- first target: the hook is installed here and removed on exit
      have hhook : c.hook = false := by
        rcases Bool.eq_false_or_eq_true c.hook with h | h
        · exact absurd (hsupp ▸ hinv.mp h) (by simp [hempty])
        · exact h
      refine ⟨?_, ?_, rfl, ?_⟩
      · simp [runIgnoreScope, ignoreEnter, ignoreExit, IgnoreCtx.suppressed,
          hmem, hempty, Finset.erase_insert hmem]
      · simp [runIgnoreScope, ignoreEnter, ignoreExit, hempty, hhook]
      · simp [ignoreEnter, IgnoreCtx.suppressed, hmem, hsupp]
    · -- nested under other targets: the hook stays, the target is removed
      refine ⟨?_, ?_, rfl, ?_⟩
      · simp [runIgnoreScope, ignoreEnter, ignoreExit, IgnoreCtx.suppressed,
          hmem, hempty, Finset.erase_insert hmem]
      · simp [runIgnoreScope, ignoreEnter, ignoreExit, hempty]
      · simp [ignoreEnter, IgnoreCtx.suppressed, hmem, hsupp]

/-- Witness for C9 at a fresh context (no `_ignore.value` attribute yet, no
hook) with a raising body. -/
theorem c9_witness :
    (runIgnoreScope "table_a:pgtrigger_protect_a" ⟨none, false⟩ true).1.suppressed =
      IgnoreCtx.suppressed ⟨none, false⟩ ∧
    (runIgnoreScope "table_a:pgtrigger_protect_a" ⟨none, false⟩ true).1.hook = false ∧
    (runIgnoreScope "table_a:pgtrigger_protect_a" ⟨none, false⟩ true).2 = true ∧
    (ignoreEnter "table_a:pgtrigger_protect_a" (⟨none, false⟩ : IgnoreCtx)).1.suppressed =
      insert "table_a:pgtrigger_protect_a" (IgnoreCtx.suppressed ⟨none, false⟩) :=
  c9_ignore_scope_restores "table_a:pgtrigger_protect_a" ⟨none, false⟩ true
    (by decide)

/-! ### C7 — `get` validation and lookup -/

/-- A non-empty string has a non-empty character list. -/
theorem data_ne_nil (u : String) (h : u ≠ "") : u.data ≠ [] := by
  cases u with
  | mk d =>
    cases d with
    | nil => exact absurd rfl h
    | cons a l => simp

/-- The validation loop passes when every uri contains a ':' and is a
registry key. -/
theorem checkUris_ok_of_valid (reg : Registry) :
    ∀ uris : List String,
      (∀ u ∈ uris, ':' ∈ u.data ∧ (lookupReg u reg).isSome) →
      checkUris reg uris = .ok ()
  | [], _ => rfl
  | u :: rest, h => by
    obtain ⟨hc, hs⟩ := h u (List.mem_cons_self u rest)
    have hs' : lookupReg u reg ≠ none := Option.ne_none_iff_isSome.mpr hs
    have hrest := checkUris_ok_of_valid reg rest
      (fun v hv => h v (List.mem_cons_of_mem u hv))
    simp [checkUris, hc, hs', hrest]

/-- The fetch comprehension succeeds on all-present uris and returns the
matching pairs in input order. -/
theorem fetchUris_ok (reg : Registry) :
    ∀ uris : List String, (∀ u ∈ uris, (lookupReg u reg).isSome) →
      fetchUris reg uris = .ok (uris.filterMap fun u => lookupReg u reg)
  | [], _ => rfl
  | u :: rest, h => by
    obtain ⟨p, hp⟩ := Option.isSome_iff_exists.mp (h u (List.mem_cons_self u rest))
    have hrest := fetchUris_ok reg rest
      (fun v hv => h v (List.mem_cons_of_mem u hv))
    simp [fetchUris, hp, hrest, List.filterMap_cons, Except.map]

/-- The validation loop fails with a ValueError as soon as some non-empty
uri is malformed or unregistered, provided no uri is the empty string. -/
theorem checkUris_error_of_bad (reg : Registry) :
    ∀ uris : List String, "" ∉ uris →
      (∃ u ∈ uris, ':' ∉ u.data ∨ lookupReg u reg = none) →
      ∃ msg, checkUris reg uris = .error (.valueError msg)
  | [], _, hbad => by simp at hbad
  | u :: rest, hne, hbad => by
    have hu : u.data ≠ [] :=
      data_ne_nil u (fun h => hne (h ▸ List.mem_cons_self u rest))
    by_cases hc : ':' ∈ u.data
    · by_cases hs : lookupReg u reg = none
      · exact ⟨"URI \"" ++ u ++ "\" not found in pgtrigger registry",
          by simp [checkUris, hu, hc, hs]⟩
      · have hbad' : ∃ v ∈ rest, ':' ∉ v.data ∨ lookupReg v reg = none := by
          obtain ⟨v, hv, hvbad⟩ := hbad
          rcases List.mem_cons.mp hv with rfl | hv'
          · rcases hvbad with h | h
            · exact absurd hc h
            · exact absurd h hs
          · exact ⟨v, hv', hvbad⟩
        obtain ⟨msg, hmsg⟩ := checkUris_error_of_bad reg rest
          (fun h => hne (List.mem_cons_of_mem u h)) hbad'
        exact ⟨msg, by simp [checkUris, hu, hc, hs, hmsg]⟩
    · exact ⟨"Trigger URI must be in the format of \"app_label.model_name:trigger_name\"",
        by simp [checkUris, hu, hc]⟩

/-- C7 counterexample: the empty-string URI lacks the `qualifier:name`
shape and is absent from the registry, yet `get("")` does not raise the
ValueError behind the spec's ConfigurationError: the `if uri and ...`
guards skip validation for a falsy uri and the dict subscript then raises
KeyError — a different failure class. -/
theorem c7_counterexample :
    getTriggers [""] regAB = .error .keyError := by
  decide

/-- C7 (amended): `get()` with no arguments returns every registered pair
in registration order; for argument lists of *non-empty* URIs, any
malformed (no ':') or unregistered URI makes `get` fail with a ValueError,
and when all URIs are well-formed registry keys it returns the matching
pairs in input order.  (The empty-string URI escapes validation and fails
with KeyError instead — the counterexample.) -/
theorem c7_get_semantics :
    (∀ reg : Registry, getTriggers [] reg = .ok (reg.map (·.2))) ∧
    (∀ (uris : List String) (reg : Registry), uris ≠ [] → "" ∉ uris →
      ((∀ u ∈ uris, ':' ∈ u.data ∧ (lookupReg u reg).isSome) →
        getTriggers uris reg = .ok (uris.filterMap fun u => lookupReg u reg)) ∧
      ((∃ u ∈ uris, ':' ∉ u.data ∨ lookupReg u reg = none) →
        ∃ msg, getTriggers uris reg = .error (.valueError msg))) := by
  constructor
  · intro reg
    rfl
  · intro uris reg hne hnil
    have hempty : uris.isEmpty = false := by
      cases uris with
      | nil => exact absurd rfl hne
      | cons a l => rfl
    constructor
    · intro hvalid
      have hc := checkUris_ok_of_valid reg uris hvalid
      have hf := fetchUris_ok reg uris (fun u hu => (hvalid u hu).2)
      simp [getTriggers, hempty, hc, hf]
    · intro hbad
      obtain ⟨msg, hmsg⟩ := checkUris_error_of_bad reg uris hnil hbad
      exact ⟨msg, by simp [getTriggers, hempty, hmsg]⟩

/-- Witness for C7's amended theorem: the no-argument form, a valid
two-URI query in input (reverse-registration) order, and a malformed URI. -/
theorem c7_witness :
    getTriggers [] regAB = .ok (regAB.map (·.2)) ∧
    getTriggers ["app.ModelB:protect_b", "app.ModelA:protect_a"] regAB =
      .ok [(modelB, protectB), (modelA, protectA)] ∧
    (∃ msg, getTriggers ["malformed"] regAB = .error (.valueError msg)) :=
  ⟨c7_get_semantics.1 regAB,
   ((c7_get_semantics.2 ["app.ModelB:protect_b", "app.ModelA:protect_a"]
        regAB (by decide) (by decide)).1 (by decide)).trans (by decide),
   (c7_get_semantics.2 ["malformed"] regAB (by decide) (by decide)).2
     (by decide)⟩

/-! ### C8 — when the generated FSM body raises -/

/-- The comma split never produces an empty element list. -/
theorem pgSplitComma_ne_nil : ∀ l : List Char, pgSplitComma l ≠ []
  | [] => by simp [pgSplitComma]
  | c :: rest => by
    by_cases h : c = ','
    · simp [pgSplitComma, h]
    · simp only [pgSplitComma, if_neg h]
      cases hr : pgSplitComma rest with
      | nil => simp
      | cons a t => simp

/-- A comma-free character list is a single element. -/
theorem pgSplitComma_no_comma : ∀ x : List Char, ',' ∉ x →
    pgSplitComma x = [x]
  | [], _ => rfl
  | c :: x, h => by
    have hc : ¬c = ',' := fun hh => h (hh ▸ List.mem_cons_self c x)
    have hx := pgSplitComma_no_comma x fun hm => h (List.mem_cons_of_mem c hm)
    simp [pgSplitComma, hc, hx]

/-- Splitting peels off a comma-free head element at the first comma. -/
theorem pgSplitComma_append : ∀ (x rest : List Char), ',' ∉ x →
    pgSplitComma (x ++ ',' :: rest) = x :: pgSplitComma rest
  | [], rest, _ => by simp [pgSplitComma]
  | c :: x, rest, h => by
    have hc : ¬c = ',' := fun hh => h (hh ▸ List.mem_cons_self c x)
    have hx := pgSplitComma_append x rest fun hm => h (List.mem_cons_of_mem c hm)
    simp [pgSplitComma, hc, hx]

/-- The characters of a `','.join`: the head's characters followed by a
comma-prefixed block per remaining element. -/
theorem joinComma_data (x : String) : ∀ rest : List String,
    (joinComma (x :: rest)).data =
      x.data ++ (rest.map fun r => ',' :: r.data).flatten
  | [] => by simp [joinComma]
  | r :: rs => by
    have ih := joinComma_data r rs
    simp [joinComma, String.data_append, ih]

/-- Splitting a `','.join` of comma-free elements recovers the elements. -/
theorem split_joined : ∀ (rest : List (List Char)) (x : List Char),
    ',' ∉ x → (∀ r ∈ rest, ',' ∉ r) →
    pgSplitComma (x ++ (rest.map fun d => ',' :: d).flatten) = x :: rest
  | [], x, hx, _ => by simp [pgSplitComma_no_comma x hx]
  | r :: rs, x, hx, hr => by
    have hrec := split_joined rs r (hr r (List.mem_cons_self r rs))
      (fun d hd => hr d (List.mem_cons_of_mem r hd))
    have hregroup :
        x ++ ((r :: rs).map (fun d => ',' :: d)).flatten =
          x ++ ',' :: (r ++ (rs.map fun d => ',' :: d).flatten) := by
      simp
    rw [hregroup, pgSplitComma_append x _ hx, hrec]

/-- Rebuilding a string from its characters is the identity. -/
theorem mk_data_eq (s : String) : String.mk s.data = s := by
  cases s
  rfl

/-- For transitions whose components contain no comma, the parsed array
elements are exactly the colon-joined transition strings. -/
theorem fsmElems_eq (ts : List (String × String))
    (h : ∀ p ∈ ts, ',' ∉ p.1.data ∧ ',' ∉ p.2.data) :
    pgArrayElems (fsmTransitionsInner ts) =
      ts.map fun p => p.1 ++ ":" ++ p.2 := by
  cases ts with
  | nil => rfl
  | cons p ps =>
    have hjoin : ∀ q : String × String, (q.1 ++ ":" ++ q.2).data =
        q.1.data ++ ':' :: q.2.data := by
      intro q
      simp [String.data_append]
    have hjf : ∀ q ∈ p :: ps, ',' ∉ (q.1 ++ ":" ++ q.2).data := by
      intro q hq hm
      rw [hjoin q] at hm
      rcases List.mem_append.mp hm with h1 | h1
      · exact (h q hq).1 h1
      · rcases List.mem_cons.mp h1 with h2 | h2
        · exact absurd h2.symm (by decide)
        · exact (h q hq).2 h2
    have hdata : (fsmTransitionsInner (p :: ps)).data =
        (p.1 ++ ":" ++ p.2).data ++
          (((ps.map fun q => q.1 ++ ":" ++ q.2).map String.data).map
            (fun d => ',' :: d)).flatten := by
      simp only [fsmTransitionsInner, List.map_cons, joinComma_data,
        List.map_map]
      rfl
    have hne : (fsmTransitionsInner (p :: ps)).data ≠ [] := by
      rw [hdata, hjoin p]
      intro hcon
      have := List.append_eq_nil.mp hcon
      have h2 := List.append_eq_nil.mp this.1
      exact absurd h2.2 (by simp)
    unfold pgArrayElems
    rw [if_neg hne, hdata]
    rw [split_joined ((ps.map fun q => q.1 ++ ":" ++ q.2).map String.data)
      (p.1 ++ ":" ++ p.2).data
      (hjf p (List.mem_cons_self p ps))
      (by
        intro d hd
        obtain ⟨s, hs, rfl⟩ := List.mem_map.mp hd
        obtain ⟨q, hq, rfl⟩ := List.mem_map.mp hs
        exact hjf q (List.mem_cons_of_mem p hq))]
    rw [List.map_cons, mk_data_eq, List.map_map]
    have hid : (String.mk ∘ String.data) = id := funext fun s => mk_data_eq s
    rw [hid, List.map_id, List.map_cons]

/-- A literal-safe string contains no comma. -/
theorem comma_not_mem_of_safe (s : String) (h : pgLiteralSafe s = true) :
    ',' ∉ s.data := by
  intro hm
  have hall := List.all_eq_true.mp h ',' hm
  simp [pgLiteralSafeChar] at hall

/-- Cancellation around a separator character that occurs in neither left
part: equal lists of the shape `xs ++ ':' :: bs` split identically. -/
theorem append_colon_cancel :
    ∀ (xs ys bs ds : List Char), ':' ∉ xs → ':' ∉ ys →
      xs ++ ':' :: bs = ys ++ ':' :: ds → xs = ys ∧ bs = ds
  | [], [], bs, ds, _, _, h => ⟨rfl, by simpa using h⟩
  | [], y :: ys, bs, ds, _, hy, h => by
    simp at h
    exact absurd (h.1 ▸ List.mem_cons_self y ys) hy
  | x :: xs, [], bs, ds, hx, _, h => by
    simp at h
    exact absurd (h.1 ▸ List.mem_cons_self x xs) hx
  | x :: xs, y :: ys, bs, ds, hx, hy, h => by
    simp at h
    obtain ⟨hxy, hrest⟩ := h
    obtain ⟨h1, h2⟩ := append_colon_cancel xs ys bs ds
      (fun hm => hx (List.mem_cons_of_mem x hm))
      (fun hm => hy (List.mem_cons_of_mem y hm)) hrest
    exact ⟨by rw [hxy, h1], h2⟩

/-- The colon-joined rendering `old ++ ":" ++ new` used by the generated
SQL determines the pair, as long as the left components are colon-free. -/
theorem colon_join_cancel (a b c d : String)
    (ha : ':' ∉ a.data) (hc : ':' ∉ c.data)
    (h : a ++ ":" ++ b = c ++ ":" ++ d) : a = c ∧ b = d := by
  have hd : a.data ++ ':' :: b.data = c.data ++ ':' :: d.data := by
    have hdata := congrArg String.data h
    simpa [String.data_append] using hdata
  obtain ⟨h1, h2⟩ := append_colon_cancel a.data c.data b.data d.data ha hc hd
  constructor
  · cases a; cases c; exact congrArg String.mk h1
  · cases b; cases d; exact congrArg String.mk h2

/-- For colon-free values and comma-free transition components, the
`CONCAT(OLD,':',NEW) = ANY(...)` membership test agrees with membership
of the pair in the transitions list. -/
theorem fsmValid_iff (ts : List (String × String)) (o n : String)
    (ho : ':' ∉ o.data) (_hn : ':' ∉ n.data)
    (hts : ∀ p ∈ ts, ':' ∉ p.1.data ∧ ':' ∉ p.2.data ∧
      ',' ∉ p.1.data ∧ ',' ∉ p.2.data) :
    fsmValidTransition ts o n = true ↔ (o, n) ∈ ts := by
  unfold fsmValidTransition
  rw [fsmElems_eq ts fun p hp => ⟨(hts p hp).2.2.1, (hts p hp).2.2.2⟩]
  rw [List.contains_iff_exists_mem_beq]
  constructor
  · rintro ⟨j, hj, hbeq⟩
    obtain ⟨p, hp, rfl⟩ := List.mem_map.mp hj
    have he : p.1 ++ ":" ++ p.2 = o ++ ":" ++ n := (beq_iff_eq.mp hbeq).symm
    obtain ⟨h1, h2⟩ := colon_join_cancel p.1 p.2 o n (hts p hp).1 ho he
    have : p = (o, n) := Prod.ext h1 h2
    exact this ▸ hp
  · intro h
    exact ⟨o ++ ":" ++ n, List.mem_map.mpr ⟨(o, n), h, rfl⟩, beq_self_eq_true _⟩

/-- C8 counterexample, both failure directions of the claimed iff.
Colon direction: with transitions [("a","b:c")], an update from "a:b" to
"c" does NOT raise (the concatenation "a:b:c" matches the rendered
transition uri) although the pair ("a:b","c") is not configured and the
value changed.  Comma direction: with transitions [("a","b,c")], the
literal '\x7ba:b,c\x7d'::text[] parses as the two elements "a:b" and "c",
so the *configured* changed update from "a" to "b,c" DOES raise. -/
theorem c8_counterexample :
    (fsmRaises [("a", "b:c")] "a:b" "c" = false ∧
     ("a:b", "c") ∉ [("a", "b:c")] ∧ "a:b" ≠ "c") ∧
    (fsmRaises [("a", "b,c")] "a" "b,c" = true ∧
     ("a", "b,c") ∈ [("a", "b,c")] ∧ "a" ≠ "b,c") := by
  decide

/-- C8 (amended): the generated FSM body tests membership of the
colon-joined string `OLD:NEW` against the comma-split elements of the
rendered array literal; for values free of ':' whose transition
components are also free of ',' and of the other array-literal
metacharacters, it raises exactly when the (OLD, NEW) pair is not in the
transitions set and the value changed; and an update that leaves the
field unchanged never raises, regardless of the transition table. -/
theorem c8_fsm_raise_condition :
    (∀ (ts : List (String × String)) (o n : String),
      ':' ∉ o.data → ':' ∉ n.data →
      (∀ p ∈ ts, ':' ∉ p.1.data ∧ ':' ∉ p.2.data ∧
        pgLiteralSafe p.1 = true ∧ pgLiteralSafe p.2 = true) →
      (fsmRaises ts o n = true ↔ ((o, n) ∉ ts ∧ o ≠ n))) ∧
    (∀ (ts : List (String × String)) (v : String),
      fsmRaises ts v v = false) := by
  constructor
  · intro ts o n ho hn hts
    have hts' : ∀ p ∈ ts, ':' ∉ p.1.data ∧ ':' ∉ p.2.data ∧
        ',' ∉ p.1.data ∧ ',' ∉ p.2.data := by
      intro p hp
      exact ⟨(hts p hp).1, (hts p hp).2.1,
        comma_not_mem_of_safe p.1 (hts p hp).2.2.1,
        comma_not_mem_of_safe p.2 (hts p hp).2.2.2⟩
    rw [fsmRaises, Bool.and_eq_true, Bool.not_eq_true',
      Bool.eq_false_iff]
    constructor
    · rintro ⟨hv, hne⟩
      exact ⟨fun hmem => hv ((fsmValid_iff ts o n ho hn hts').mpr hmem),
        by simpa using hne⟩
    · rintro ⟨hmem, hne⟩
      exact ⟨fun hv => hmem ((fsmValid_iff ts o n ho hn hts').mp hv),
        by simpa using hne⟩
  · intro ts v
    simp [fsmRaises]

/-- Witness for C8's amended theorem at the spec's own FSM example:
transitions [(A,B),(B,C)] — A→C raises, and B→B never raises. -/
theorem c8_witness :
    fsmRaises [("A", "B"), ("B", "C")] "A" "C" = true ∧
    fsmRaises [("A", "B"), ("B", "C")] "B" "B" = false :=
  ⟨(c8_fsm_raise_condition.1 [("A", "B"), ("B", "C")] "A" "C"
      (by decide) (by decide) (by decide)).mpr (by decide),
   c8_fsm_raise_condition.2 [("A", "B"), ("B", "C")] "B"⟩

/-! ### C5 — what prune drops -/

/-- Every pgid carries the reserved prefix with a real underscore as its
tenth character, so registered triggers always match prune's catalog LIKE
filter (whose '_' is a single-character wildcard). -/
theorem like_pgidStr (t : Trigger) : likePgtrigger t.pgidStr = true := by
  unfold likePgtrigger Trigger.pgidStr
  rw [String.data_append, Bool.and_eq_true]
  refine ⟨?_, ?_⟩
  · exact List.isPrefixOf_iff_prefix.mpr
      (List.IsPrefix.trans ⟨['_'], by decide⟩ (List.prefix_append _ _))
  · rw [decide_eq_true_eq, List.length_append]
    have h10 : ("pgtrigger_".data).length = 10 := by decide
    omega

/-- The expected-pairs set of a registry with one more entry. -/
theorem installedSet_cons (e : String × Model × Trigger) (reg : Registry) :
    installedSet (e :: reg) =
      insert (e.2.1.dbTable, e.2.2.pgidStr) (installedSet reg) := by
  simp [installedSet]

/-- When every registered name passes the length check, prune's pgid
comprehension succeeds and lists the expected pairs. -/
theorem installedPairs_ok (reg : Registry)
    (h : ∀ e ∈ reg, e.2.2.name.length ≤ 53) :
    installedPairs reg =
      .ok (reg.map fun e => (e.2.1.dbTable, e.2.2.pgidStr)) := by
  induction reg with
  | nil => rfl
  | cons e rest ih =>
    have hpg := pgid_eq_pgidStr e.2.2 (h e (List.mem_cons_self e rest))
    have htail := ih fun x hx => h x (List.mem_cons_of_mem e hx)
    simp only [installedPairs, hpg, htail]
    rfl

/-- When every registered name passes the length check, installing every
registered pair succeeds and unions the expected trigger pairs and
function names into the catalog. -/
theorem installAllNoPrune_ok :
    ∀ (reg : Registry) (db : DbState),
      (∀ e ∈ reg, e.2.2.name.length ≤ 53) →
      installAllNoPrune reg db =
        .ok ⟨db.triggers ∪ installedSet reg, db.funcs ∪ installedFuncs reg⟩
  | [], db, _ => by
    cases db with
    | mk tg fn => simp [installAllNoPrune, installedSet, installedFuncs]
  | e :: rest, db, h => by
    have hpg := pgid_eq_pgidStr e.2.2 (h e (List.mem_cons_self e rest))
    have hrec := installAllNoPrune_ok rest
      ⟨insert (e.2.1.dbTable, e.2.2.pgidStr) db.triggers,
       insert e.2.2.pgidStr db.funcs⟩
      (fun x hx => h x (List.mem_cons_of_mem e hx))
    have hstep : e.2.2.installModel e.2.1 db =
        .ok ⟨insert (e.2.1.dbTable, e.2.2.pgidStr) db.triggers,
             insert e.2.2.pgidStr db.funcs⟩ := by
      unfold Trigger.installModel
      rw [hpg]
      rfl
    simp only [installAllNoPrune, hstep, exceptBind_ok]
    rw [hrec]
    simp [installedSet_cons, installedFuncs, Finset.insert_union,
      Finset.union_insert]

/-- C5 counterexample: install one registered trigger, empty the registry,
prune.  The trigger binding is dropped but the backing *function* is left
behind — `_drop_trigger` only issues DROP TRIGGER — so prune does not
"remove that definition's trigger and its backing function" as claimed. -/
theorem c5_counterexample :
    installAllNoPrune regP ⟨∅, ∅⟩ = .ok dbInstalled ∧
    prune [] dbInstalled = .ok ⟨∅, {"pgtrigger_protect_a"}⟩ ∧
    dbInstalled.funcs = {"pgtrigger_protect_a"} := by
  decide

/-- C5 (amended): for registries whose names all pass the 53-character
check (otherwise install/prune raise instead): (no-change part) when the
database holds no orphaned LIKE-matching triggers, `install()` followed
by `prune()` equals `install()` alone — prune removes nothing; (removal
part) when the database's trigger set matches a registry exactly and one
definition is removed from the registry, prune succeeds and drops exactly
that definition's trigger binding and nothing else, never touching the
function set: the backing function survives. -/
theorem c5_prune_semantics :
    (∀ (reg : Registry) (db dbA : DbState),
      (∀ e ∈ reg, e.2.2.name.length ≤ 53) →
      (∀ tr ∈ db.triggers, likePgtrigger tr.2 = true →
        tr ∈ installedSet reg) →
      installAllNoPrune reg db = .ok dbA →
      prune reg dbA = .ok dbA) ∧
    (∀ (e : String × Model × Trigger) (reg : Registry) (db : DbState),
      (∀ x ∈ e :: reg, x.2.2.name.length ≤ 53) →
      db.triggers = installedSet (e :: reg) →
      (e.2.1.dbTable, e.2.2.pgidStr) ∉ installedSet reg →
      ∃ dbP : DbState, prune reg db = .ok dbP ∧
        dbP.triggers = installedSet reg ∧
        dbP.funcs = db.funcs ∧
        db.triggers \ dbP.triggers = {(e.2.1.dbTable, e.2.2.pgidStr)}) := by
  constructor
  · intro reg db dbA hnames horph hinst
    have hA : dbA =
        ⟨db.triggers ∪ installedSet reg, db.funcs ∪ installedFuncs reg⟩ := by
      have hok := installAllNoPrune_ok reg db hnames
      rw [hok] at hinst
      exact (Except.ok.inj hinst).symm
    have hpairs := installedPairs_ok reg hnames
    have hkeep : ∀ x ∈ dbA.triggers,
        ¬(likePgtrigger x.2 = true ∧
          x ∉ (reg.map fun e => (e.2.1.dbTable, e.2.2.pgidStr)).toFinset) := by
      intro x hx
      rw [hA] at hx
      rcases Finset.mem_union.mp hx with h1 | h2
      · rintro ⟨hl, hni⟩
        exact hni (horph x h1 hl)
      · rintro ⟨-, hni⟩
        exact hni h2
    simp only [prune, hpairs, exceptBind_ok]
    rw [Finset.filter_true_of_mem hkeep]
  · intro e reg db hnames hdb hnot
    have hpairs := installedPairs_ok reg
      (fun x hx => hnames x (List.mem_cons_of_mem e hx))
    have hfilter : (db.triggers.filter fun tr =>
        ¬(likePgtrigger tr.2 = true ∧
          tr ∉ (reg.map fun x => (x.2.1.dbTable, x.2.2.pgidStr)).toFinset)) =
        installedSet reg := by
      show (db.triggers.filter fun tr =>
        ¬(likePgtrigger tr.2 = true ∧ tr ∉ installedSet reg)) = _
      rw [hdb, installedSet_cons, Finset.filter_insert]
      rw [if_neg (fun hP => hP ⟨like_pgidStr e.2.2, hnot⟩)]
      refine Finset.filter_true_of_mem ?_
      intro x hx
      rintro ⟨-, hni⟩
      exact hni hx
    refine ⟨⟨installedSet reg, db.funcs⟩, ?_, rfl, rfl, ?_⟩
    · simp only [prune, hpairs, exceptBind_ok]
      rw [hfilter]
    · rw [hdb, installedSet_cons]
      ext x
      simp only [Finset.mem_sdiff, Finset.mem_insert, Finset.mem_singleton]
      constructor
      · rintro ⟨h1 | h1, h2⟩
        · exact h1
        · exact absurd h1 h2
      · rintro rfl
        exact ⟨Or.inl rfl, hnot⟩

/-- Witness for C5's amended theorem: install-then-prune on the one-entry
registry is a no-op, and pruning after emptying that registry removes
exactly the one trigger binding while the function set is untouched. -/
theorem c5_witness :
    prune regP dbInstalled = .ok dbInstalled ∧
    (∃ dbP : DbState, prune [] dbInstalled = .ok dbP ∧
      dbP.triggers = installedSet [] ∧
      dbP.funcs = dbInstalled.funcs ∧
      dbInstalled.triggers \ dbP.triggers =
        {(modelA.dbTable, protectA.pgidStr)}) :=
  ⟨c5_prune_semantics.1 regP ⟨∅, ∅⟩ dbInstalled (by decide) (by decide)
      (by decide),
   c5_prune_semantics.2 ("app.ModelA:protect_a", modelA, protectA) []
     dbInstalled (by decide) (by decide) (by decide)⟩

end Pgtrigger
